import Mathlib

/-!
Verification of the `dynatrace-cli` log TUI core logic.

This file shallowly embeds the pure core of the Python sources
(`src/dynatrace_log_tui/{main,data,models,query_manager,api_client}.py`)
into Lean 4 and proves the specified properties about it.

Conventions of the embedding:
* Python strings are Lean `String`s; the Python string primitives used by
  the code (`str.strip`, `str.lower`, `str.upper`, the `in` substring
  test, `str.split`, `'\n'.join`, `str.startswith`) are re-implemented
  below on `List Char` (`stripList`, `Char.toLower` mapping, ...).  The
  case mappings cover the ASCII range, which is the range exercised by
  the program's data.
* Python `datetime` values are embedded as `Int` microseconds since the
  Unix epoch (the program only builds timezone-naive UTC arithmetic on
  them, where every calendar day is exactly 86400000000 microseconds).
  Calendar conversions use the standard proleptic-Gregorian
  civil-from-days / days-from-civil algorithms.
* Methods that mutate `self` become functions from the relevant state to
  the new state; user notifications become `Bool`/`Option` results.
-/

/-- Characters stripped by Python `str.strip()` (ASCII whitespace range
actually occurring in the program's data). -/
def pySpace (c : Char) : Bool :=
  c = ' ' || c = '\t' || c = '\n' || c = '\r' || c = '\x0b' || c = '\x0c'

/-- Python `str.strip()` on a character list: drop `pySpace` characters
from both ends. -/
def stripList (l : List Char) : List Char :=
  ((l.dropWhile pySpace).reverse.dropWhile pySpace).reverse

/-- Python `str.strip()`. -/
def pyStrip (s : String) : String := ⟨stripList s.data⟩

/-- Python `str.lower()` (ASCII range). -/
def pyLower (s : String) : String := ⟨s.data.map Char.toLower⟩

/-- Python `str.upper()` (ASCII range). -/
def pyUpper (s : String) : String := ⟨s.data.map Char.toUpper⟩

/-- Contiguous-sublist test: `isSubList needle hay` is true iff `needle`
occurs contiguously inside `hay`. -/
def isSubList (needle : List Char) : List Char → Bool
  | [] => needle.isEmpty
  | c :: rest => needle.isPrefixOf (c :: rest) || isSubList needle rest

/-- Python `needle in hay` on strings (contiguous substring test). -/
def pyIn (needle hay : String) : Bool := isSubList needle.data hay.data

/-- Python `s.split('\n')` on a character list: splits at every newline,
yielding one (possibly empty) piece more than the number of newlines. -/
def splitNL (l : List Char) : List (List Char) :=
  l.foldr
    (fun c acc =>
      match acc with
      | [] => [[c]]
      | h :: t => if c = '\n' then [] :: h :: t else (c :: h) :: t)
    [[]]

/-- Python `'\n'.join(pieces)` on character lists. -/
def joinNL (ls : List (List Char)) : List Char := List.intercalate ['\n'] ls

/-- Python `s.startswith('#')` on a character list. -/
def startsHash : List Char → Bool
  | [] => false
  | c :: _ => c = '#'

/-- One log record, as built in `data.py` / `api_client.py`: the
`timestamp` is a `datetime` (embedded as microseconds since the epoch),
all remaining fields are strings. -/
structure LogEntry where
  timestamp : Int
  level : String
  service : String
  message : String
  host : String
  trace_id : String
  span_id : String
  content : String
  deriving DecidableEq, Inhabited, Repr

/-- Microseconds in one day of a timezone-naive Python `datetime`. -/
def usPerDay : Int := 86400000000

/-- Proleptic-Gregorian conversion from a day count (days since
1970-01-01) to `(year, month, day)`; standard civil-from-days
algorithm, used to embed Python `datetime` field access. -/
def civilFromDays (z0 : Int) : Int × Int × Int :=
  let z := z0 + 719468
  let era := z / 146097
  let doe := z - era * 146097
  let yoe := (doe - doe / 1460 + doe / 36524 - doe / 146096) / 365
  let y := yoe + era * 400
  let doy := doe - (365 * yoe + yoe / 4 - yoe / 100)
  let mp := (5 * doy + 2) / 153
  let d := doy - (153 * mp + 2) / 5 + 1
  let m := mp + (if mp < 10 then 3 else -9)
  (y + (if m ≤ 2 then 1 else 0), m, d)

/-- Proleptic-Gregorian conversion from `(year, month, day)` to a day
count (days since 1970-01-01); inverse of `civilFromDays`. -/
def daysFromCivil (y0 m d : Int) : Int :=
  let y := y0 - (if m ≤ 2 then 1 else 0)
  let era := y / 400
  let yoe := y - era * 400
  let doy := (153 * (m + (if 2 < m then -3 else 9)) + 2) / 5 + d - 1
  let doe := yoe * 365 + yoe / 4 - yoe / 100 + doy
  era * 146097 + doe - 719468

/-- Microseconds since the epoch of a given civil date and time. -/
def microsOfDateTime (y m d h mi s us : Int) : Int :=
  daysFromCivil y m d * usPerDay + ((h * 60 + mi) * 60 + s) * 1000000 + us

/-- Decimal digit character. -/
def digitChar (n : Nat) : Char := Char.ofNat (48 + n % 10)

/-- Two-digit zero-padded decimal (Python strftime `%m`, `%d`, `%H`,
`%M`, `%S` on their valid ranges). -/
def pad2 (n : Nat) : List Char := [digitChar (n / 10), digitChar (n % 10)]

/-- Four-digit zero-padded decimal (Python strftime `%Y` for years
1000-9999, the range of the program's timestamps). -/
def pad4 (n : Nat) : List Char :=
  [digitChar (n / 1000), digitChar (n / 100 % 10), digitChar (n / 10 % 10),
    digitChar (n % 10)]

/-- Python `timestamp.strftime("%Y-%m-%d %H:%M:%S")` as used by
`main.py` for the Timestamp cell and the CSV export. -/
def formatTimestamp (ts : Int) : String :=
  let days := ts / usPerDay
  let rem := (ts % usPerDay).toNat
  let secs := rem / 1000000
  let c := civilFromDays days
  ⟨pad4 c.1.toNat ++ ['-'] ++ pad2 c.2.1.toNat ++ ['-'] ++ pad2 c.2.2.toNat ++
    [' '] ++ pad2 (secs / 3600) ++ [':'] ++ pad2 (secs % 3600 / 60) ++
    [':'] ++ pad2 (secs % 60)⟩

/-- `data.filter_logs`: if the query is blank, return the logs
unchanged; otherwise keep every log for which the lowered query is a
substring of the lowered `message`, `service`, `level` or `content`. -/
def filter_logs (logs : List LogEntry) (query : String) : List LogEntry :=
  if pyStrip query = "" then logs
  else
    let query_lower := pyLower query
    logs.filter (fun log =>
      pyIn query_lower (pyLower log.message) ||
      pyIn query_lower (pyLower log.service) ||
      pyIn query_lower (pyLower log.level) ||
      pyIn query_lower (pyLower log.content))

/-- `QueryProcessor.clean_query`: keep the lines whose stripped form is
non-empty and does not start with a hash, re-join them with newlines,
and strip the result. -/
def clean_query (query : String) : String :=
  let query_lines := (splitNL query.data).filter
    (fun line => !(stripList line).isEmpty && !startsHash (stripList line))
  ⟨stripList (joinNL query_lines)⟩

/-- `DynatraceLogTUI.run_query` in development/fallback mode (the
branches of `main.py` lines 266-316 that do not touch the network): a
non-empty cleaned query filters the full set through `filter_logs`, an
empty cleaned query restores a copy of the full set. -/
def run_query_offline (all_logs : List LogEntry) (query : String) : List LogEntry :=
  let actual_query := clean_query query
  if actual_query = "" then all_logs
  else filter_logs all_logs actual_query

/-! Auxiliary lemmas: `stripList` is idempotent. -/

lemma dropWhile_dropWhile (p : Char → Bool) (l : List Char) :
    (l.dropWhile p).dropWhile p = l.dropWhile p := by
  induction l with
  | nil => rfl
  | cons a l ih =>
    by_cases h : p a
    · simpa [List.dropWhile, h] using ih
    · simp [List.dropWhile, h]

lemma head?_dropWhile (p : Char → Bool) :
    ∀ (l : List Char) (c : Char), (l.dropWhile p).head? = some c → p c = false := by
  intro l
  induction l with
  | nil => intro c h; simp [List.dropWhile] at h
  | cons a l ih =>
    intro c h
    by_cases ha : p a
    · exact ih c (by simpa [List.dropWhile, ha] using h)
    · simp [List.dropWhile, ha] at h
      simpa [h] using ha

lemma exists_append_dropWhile (p : Char → Bool) (l : List Char) :
    ∃ t, t ++ l.dropWhile p = l := by
  induction l with
  | nil => exact ⟨[], rfl⟩
  | cons a l ih =>
    by_cases h : p a
    · obtain ⟨t, ht⟩ := ih
      exact ⟨a :: t, by simp [List.dropWhile, h, ht]⟩
    · exact ⟨[], by simp [List.dropWhile, h]⟩

lemma stripList_idem (l : List Char) : stripList (stripList l) = stripList l := by
  unfold stripList
  have h1 : ((((l.dropWhile pySpace).reverse.dropWhile pySpace).reverse).dropWhile
      pySpace) = ((l.dropWhile pySpace).reverse.dropWhile pySpace).reverse := by
    cases hBr : ((l.dropWhile pySpace).reverse.dropWhile pySpace).reverse with
    | nil => rfl
    | cons b bs =>
      have hb : pySpace b = false := by
        obtain ⟨t, ht⟩ := exists_append_dropWhile pySpace (l.dropWhile pySpace).reverse
        have hA : l.dropWhile pySpace =
            ((l.dropWhile pySpace).reverse.dropWhile pySpace).reverse ++ t.reverse := by
          have := congrArg List.reverse ht
          simpa using this.symm
        have hhead : (l.dropWhile pySpace).head? = some b := by
          rw [hA, hBr]; simp
        exact head?_dropWhile pySpace l b hhead
      simp [List.dropWhile, hb]
  rw [h1]
  simp [dropWhile_dropWhile]

lemma pyStrip_clean_query (q : String) :
    pyStrip (clean_query q) = clean_query q := by
  unfold pyStrip clean_query
  exact congrArg String.mk (stripList_idem _)

/-- Claim C3: in fallback/offline mode, running a query whose normalized
text is empty makes the current set equal (by content) to the full set;
running a non-empty normalized query `q` keeps exactly the records of
the full set for which `q` is a case-insensitive substring of the
message, service, level or content field, in the original order
(`List.filter` preserves order). -/
theorem run_query_offline_spec (full : List LogEntry) (q : String) :
    (clean_query q = "" → run_query_offline full q = full) ∧
    (clean_query q ≠ "" →
      run_query_offline full q = full.filter (fun log =>
        pyIn (pyLower (clean_query q)) (pyLower log.message) ||
        pyIn (pyLower (clean_query q)) (pyLower log.service) ||
        pyIn (pyLower (clean_query q)) (pyLower log.level) ||
        pyIn (pyLower (clean_query q)) (pyLower log.content))) := by
  constructor
  · intro h
    simp [run_query_offline, h]
  · intro h
    have hs : pyStrip (clean_query q) = clean_query q := pyStrip_clean_query q
    simp [run_query_offline, h, filter_logs, hs]

/-- Sample record used to exercise the offline query path. -/
def demoLog (msg : String) : LogEntry :=
  { timestamp := 0, level := "INFO", service := "svc", message := msg,
    host := "h", trace_id := "", span_id := "", content := "" }

/-- Witness for C3: the spec's example scenario — three records with
messages "payment failed", "login ok", "payment retried"; the offline
query "payment" keeps the first and third, in order. -/
theorem run_query_offline_spec_witness :
    run_query_offline
        [demoLog "payment failed", demoLog "login ok", demoLog "payment retried"]
        "payment" =
      [demoLog "payment failed", demoLog "payment retried"] := by
  have h := (run_query_offline_spec
    [demoLog "payment failed", demoLog "login ok", demoLog "payment retried"]
    "payment").2 (by decide)
  rw [h]
  decide

/-- One query-history entry (`models.HistoryQuery`): the query text plus
the execution instant (`datetime.now().isoformat()`, embedded as `Int`
microseconds). -/
structure HistoryQuery where
  query : String
  executed_at : Int
  deriving DecidableEq, Repr

/-- `QueryHistory.add_query`: clean the query (the method inlines the
same comment/blank-line stripping as `QueryProcessor.clean_query`); if
the cleaned text is non-empty, remove any entry with identical text,
prepend a fresh entry, and keep only the first 50 entries. -/
def QueryHistory.add_query (history : List HistoryQuery) (query : String)
    (now : Int) : List HistoryQuery :=
  let cq := clean_query query
  if cq = "" then history
  else (⟨cq, now⟩ :: history.filter (fun q => q.query ≠ cq)).take 50

/-- One saved query (`models.SavedQuery`): name, query text, creation
instant. -/
structure SavedQuery where
  name : String
  query : String
  created_at : Int
  deriving DecidableEq, Repr

/-- `QueryManager.add_query`: succeeds (prepending the new entry) only
when the query text is non-blank and no existing entry has the same
name; the `Bool` is the method's return value. -/
def QueryManager.add_query (queries : List SavedQuery) (name query : String)
    (now : Int) : List SavedQuery × Bool :=
  if pyStrip query ≠ "" ∧ queries.any (fun q => q.name == name) = false then
    (⟨name, query, now⟩ :: queries, true)
  else (queries, false)

/-- Claim C5: for a normalized (`clean_query`-stable) non-empty query:
adding a duplicate of an existing entry's text does not increase the
length and puts the entry at the front; the result never exceeds 50
entries; and adding a distinct query to a full 50-entry history prepends
it and evicts the oldest (last) entry. -/
theorem history_add_query_spec (history : List HistoryQuery) (q : String)
    (now : Int) (hn : clean_query q = q) (hq : q ≠ "") :
    (q ∈ history.map (fun e => e.query) →
      (QueryHistory.add_query history q now).length ≤ history.length ∧
      (QueryHistory.add_query history q now).head?.map (fun e => e.query) =
        some q) ∧
    (QueryHistory.add_query history q now).length ≤ 50 ∧
    (history.length = 50 → q ∉ history.map (fun e => e.query) →
      QueryHistory.add_query history q now = ⟨q, now⟩ :: history.dropLast) := by
  have hadd : QueryHistory.add_query history q now =
      (⟨q, now⟩ :: history.filter (fun e => e.query ≠ q)).take 50 := by
    simp [QueryHistory.add_query, hn, hq]
  refine ⟨?_, ?_, ?_⟩
  · intro hmem
    obtain ⟨e, he, heq⟩ := List.mem_map.1 hmem
    constructor
    · rw [hadd]
      have hlt : (history.filter (fun e => e.query ≠ q)).length <
          history.length := by
        apply List.length_filter_lt_length_iff_exists.2
        exact ⟨e, he, by simp [heq]⟩
      calc ((⟨q, now⟩ :: history.filter (fun e => e.query ≠ q)).take 50).length
          ≤ (⟨q, now⟩ :: history.filter (fun e => e.query ≠ q)).length := by
            rw [List.length_take]; exact min_le_right _ _
        _ = (history.filter (fun e => e.query ≠ q)).length + 1 := by simp
        _ ≤ history.length := hlt
    · rw [hadd]
      have h50 : (50 : Nat) = 49 + 1 := rfl
      rw [h50, List.take_succ_cons]
      simp
  · rw [hadd]
    exact List.length_take_le _ _
  · intro hlen hnot
    rw [hadd]
    have hfil : history.filter (fun e => e.query ≠ q) = history := by
      apply List.filter_eq_self.2
      intro e he
      simp only [ne_eq, decide_eq_true_eq]
      intro hcontra
      exact hnot (List.mem_map.2 ⟨e, he, hcontra⟩)
    rw [hfil]
    have h50 : (50 : Nat) = 49 + 1 := rfl
    rw [h50, List.take_succ_cons]
    rw [List.dropLast_eq_take, hlen]

/-- Witness for C5: re-adding "a" to the history ["a", "b"] keeps the
length at 2 and puts "a" at the front. -/
theorem history_add_query_spec_witness :
    (QueryHistory.add_query [⟨"a", 0⟩, ⟨"b", 1⟩] "a" 5).length ≤ 2 ∧
    (QueryHistory.add_query [⟨"a", 0⟩, ⟨"b", 1⟩] "a" 5).head?.map
      (fun e => e.query) = some "a" :=
  (history_add_query_spec [⟨"a", 0⟩, ⟨"b", 1⟩] "a" 5 (by decide)
    (by decide)).1 (by decide)

/-- Claim C9: saving a query with blank (empty or whitespace-only) text
fails and leaves the store unchanged even if the name is fresh; the call
succeeds exactly when the text is non-blank and no existing entry has
the same name, in which case the new entry is prepended; any failure
leaves the store unchanged. -/
theorem manager_add_query_spec (queries : List SavedQuery)
    (name query : String) (now : Int) :
    (pyStrip query = "" →
      QueryManager.add_query queries name query now = (queries, false)) ∧
    ((QueryManager.add_query queries name query now).2 = true ↔
      pyStrip query ≠ "" ∧ ∀ e ∈ queries, e.name ≠ name) ∧
    ((QueryManager.add_query queries name query now).2 = true →
      QueryManager.add_query queries name query now =
        (⟨name, query, now⟩ :: queries, true)) ∧
    ((QueryManager.add_query queries name query now).2 = false →
      (QueryManager.add_query queries name query now).1 = queries) := by
  unfold QueryManager.add_query
  by_cases hc : pyStrip query ≠ "" ∧ queries.any (fun q => q.name == name) = false
  · rw [if_pos hc]
    refine ⟨fun h => absurd h hc.1, ?_, fun _ => rfl, fun h => by simp at h⟩
    constructor
    · intro _
      refine ⟨hc.1, fun e he => ?_⟩
      have h2 := hc.2
      rw [List.any_eq_false] at h2
      simpa using h2 e he
    · intro _
      rfl
  · rw [if_neg hc]
    refine ⟨fun _ => rfl, ?_, fun h => by simp at h, fun _ => rfl⟩
    constructor
    · intro h
      exact absurd h (by simp)
    · intro ⟨h1, h2⟩
      refine absurd ⟨h1, ?_⟩ hc
      rw [List.any_eq_false]
      intro e he
      simpa using h2 e he

/-- Witness for C9: saving a whitespace-only query into an empty store
fails and leaves the store empty. -/
theorem manager_add_query_spec_witness :
    QueryManager.add_query [] "fresh-name" "   " 0 = ([], false) :=
  (manager_add_query_spec [] "fresh-name" "   " 0).1 (by decide)

/-- `DynatraceLogTUI.action_column_selection`, apply branch: an empty
selection is rejected with a notification (`Bool` result `false`) and
the previous visible columns are kept; a non-empty selection replaces
the visible-column list. -/
def action_column_selection (visible_columns new_columns : List String) :
    List String × Bool :=
  if new_columns.isEmpty = false then (new_columns, true)
  else (visible_columns, false)

/-- Claim C6: applying an empty column selection is a rejected no-op
(the previous columns survive, a constraint violation is reported);
applying a non-empty selection installs exactly that ordered list; in
particular a non-empty visible-column list can never become empty. -/
theorem column_selection_spec (cur cols : List String) :
    (cols = [] → action_column_selection cur cols = (cur, false)) ∧
    (cols ≠ [] → action_column_selection cur cols = (cols, true)) ∧
    (cur ≠ [] → (action_column_selection cur cols).1 ≠ []) := by
  refine ⟨?_, ?_, ?_⟩
  · intro h; simp [action_column_selection, h]
  · intro h; simp [action_column_selection, List.isEmpty_iff, h]
  · intro h
    unfold action_column_selection
    by_cases hc : cols.isEmpty = false
    · simp only [hc, if_pos]
      exact fun hcontra => by simp [List.isEmpty_iff] at hc; exact hc hcontra
    · simp only [hc, if_neg, not_false_eq_true]
      exact h

/-- Witness for C6: rejecting the empty selection keeps the default
column list. -/
theorem column_selection_spec_witness :
    action_column_selection ["Timestamp", "Level"] [] =
      (["Timestamp", "Level"], false) :=
  (column_selection_spec ["Timestamp", "Level"] []).1 rfl

/-- The fixed details-pane height list of `main.py`. -/
def details_heights : List Nat := [5, 10, 15, 20, 30]

/-- Details-pane state: `current_details_index` indexes
`details_heights`; `details_visible` is the visibility flag. -/
structure DetailsState where
  current_details_index : Nat
  details_visible : Bool
  deriving DecidableEq, Repr

/-- `DynatraceLogTUI.action_increase_details`: while visible and below
the top height, step the index up; while hidden, reveal at the stored
index; otherwise do nothing. -/
def action_increase_details (s : DetailsState) : DetailsState :=
  if s.details_visible = true ∧
      s.current_details_index < details_heights.length - 1 then
    { s with current_details_index := s.current_details_index + 1 }
  else if s.details_visible = false then
    { s with details_visible := true }
  else s

/-- `DynatraceLogTUI.action_decrease_details`: while visible and above
index 0, step the index down; while visible at index 0, hide the pane;
otherwise do nothing. -/
def action_decrease_details (s : DetailsState) : DetailsState :=
  if s.details_visible = true ∧ 0 < s.current_details_index then
    { s with current_details_index := s.current_details_index - 1 }
  else if s.details_visible = true ∧ s.current_details_index = 0 then
    { s with details_visible := false }
  else s

/-- Claim C7: increase while visible below the top raises the level by
one; increase while visible at the top is a no-op; increase while
hidden reveals the pane at the previously-set level; decrease while
visible above the floor lowers the level by one; decrease while visible
at the floor hides the pane; and both operations keep the index a valid
index into `details_heights`. -/
theorem details_cycle_spec (s : DetailsState)
    (hinv : s.current_details_index < details_heights.length) :
    (s.details_visible = true →
      s.current_details_index < details_heights.length - 1 →
      action_increase_details s =
        { s with current_details_index := s.current_details_index + 1 }) ∧
    (s.details_visible = true →
      s.current_details_index = details_heights.length - 1 →
      action_increase_details s = s) ∧
    (s.details_visible = false →
      action_increase_details s = { s with details_visible := true }) ∧
    (s.details_visible = true → 0 < s.current_details_index →
      action_decrease_details s =
        { s with current_details_index := s.current_details_index - 1 }) ∧
    (s.details_visible = true → s.current_details_index = 0 →
      action_decrease_details s = { s with details_visible := false }) ∧
    (action_increase_details s).current_details_index <
      details_heights.length ∧
    (action_decrease_details s).current_details_index <
      details_heights.length := by
  refine ⟨?_, ?_, ?_, ?_, ?_, ?_, ?_⟩
  · intro hv hlt; simp [action_increase_details, hv, hlt]
  · intro hv heq
    simp only [action_increase_details, heq]
    simp [hv]
  · intro hv
    simp [action_increase_details, hv]
  · intro hv hpos; simp [action_decrease_details, hv, hpos]
  · intro hv heq
    simp only [action_decrease_details, heq]
    simp [hv]
  · unfold action_increase_details
    by_cases h1 : s.details_visible = true ∧
        s.current_details_index < details_heights.length - 1
    · rw [if_pos h1]
      have hlen : details_heights.length = 5 := rfl
      have h2 := h1.2
      show s.current_details_index + 1 < details_heights.length
      omega
    · rw [if_neg h1]
      by_cases h2 : s.details_visible = false
      · rw [if_pos h2]
        exact hinv
      · rw [if_neg h2]
        exact hinv
  · unfold action_decrease_details
    by_cases h1 : s.details_visible = true ∧ 0 < s.current_details_index
    · rw [if_pos h1]
      show s.current_details_index - 1 < details_heights.length
      omega
    · rw [if_neg h1]
      by_cases h2 : s.details_visible = true ∧ s.current_details_index = 0
      · rw [if_pos h2]
        exact hinv
      · rw [if_neg h2]
        exact hinv

/-- Witness for C7: one decrease from the lowest level while visible
hides the pane and keeps the level. -/
theorem details_cycle_spec_witness :
    action_decrease_details
        { current_details_index := 0, details_visible := true } =
      { current_details_index := 0, details_visible := false } :=
  (details_cycle_spec ⟨0, true⟩ (by decide)).2.2.2.2.1 rfl rfl

/-- Search-navigation state of `DynatraceLogTUI`: the match list, the
cursor (`current_match_index`, a Python `int`, so embedded as `Int`)
and the active flag. -/
structure SearchNav where
  search_matches : List (Nat × Nat)
  current_match_index : Int
  search_active : Bool
  deriving DecidableEq, Repr

/-- `DynatraceLogTUI.action_search_next`: with no active search or no
matches, notify ("No active search", the `true` result) and change
nothing; otherwise step the cursor forward cyclically. -/
def action_search_next (s : SearchNav) : SearchNav × Bool :=
  if s.search_active = false ∨ s.search_matches.isEmpty = true then (s, true)
  else
    ({ s with current_match_index :=
        (s.current_match_index + 1) % (s.search_matches.length : Int) }, false)

/-- `DynatraceLogTUI.action_search_prev`: with no active search or no
matches, notify and change nothing; otherwise step the cursor backward
cyclically. -/
def action_search_prev (s : SearchNav) : SearchNav × Bool :=
  if s.search_active = false ∨ s.search_matches.isEmpty = true then (s, true)
  else
    ({ s with current_match_index :=
        (s.current_match_index - 1) % (s.search_matches.length : Int) }, false)

/-- The state transformer of one forward step. -/
def nextStep (s : SearchNav) : SearchNav := (action_search_next s).1

lemma nextStep_iterate (s : SearchNav) (hact : s.search_active = true)
    (hne : s.search_matches ≠ [])
    (h0 : 0 ≤ s.current_match_index)
    (hlt : s.current_match_index < (s.search_matches.length : Int)) :
    ∀ k : Nat, nextStep^[k] s =
      { s with current_match_index :=
          (s.current_match_index + k) % (s.search_matches.length : Int) } := by
  intro k
  induction k with
  | zero =>
    simp only [Function.iterate_zero, id_eq, Nat.cast_zero, add_zero]
    rw [Int.emod_eq_of_lt h0 hlt]
  | succ k ih =>
    rw [Function.iterate_succ_apply', ih]
    unfold nextStep action_search_next
    rw [if_neg]
    · have : (s.current_match_index + (k : Int)) %
          (s.search_matches.length : Int) + 1 =
          ((s.current_match_index + (k : Int)) %
            (s.search_matches.length : Int) + 1) := rfl
      simp only []
      congr 1
      rw [Int.emod_add_emod]
      push_cast
      ring_nf
    · simp only [hact, List.isEmpty_iff, hne]
      simp

/-- Claim C2: with an active search on a non-empty match list of length
N and a valid cursor, `next` moves the cursor to `(cursor+1) mod N` and
`prev` to `(cursor-1+N) mod N`, neither touching the match list nor
reporting "no active search"; `next` applied N times from cursor 0
returns to cursor 0; `prev` from cursor 0 yields N-1; and on any state
with no active search or an empty match list both actions return the
state unchanged and report "no active search". -/
theorem search_nav_spec (s : SearchNav) (N : Nat)
    (hN : s.search_matches.length = N) (hact : s.search_active = true)
    (hne : s.search_matches ≠ [])
    (h0 : 0 ≤ s.current_match_index)
    (hlt : s.current_match_index < (N : Int)) :
    ((action_search_next s).1.current_match_index =
        (s.current_match_index + 1) % (N : Int) ∧
      (action_search_next s).1.search_matches = s.search_matches ∧
      (action_search_next s).2 = false) ∧
    ((action_search_prev s).1.current_match_index =
        (s.current_match_index - 1 + N) % (N : Int) ∧
      (action_search_prev s).1.search_matches = s.search_matches ∧
      (action_search_prev s).2 = false) ∧
    (s.current_match_index = 0 →
      (nextStep^[N] s).current_match_index = 0) ∧
    (s.current_match_index = 0 →
      (action_search_prev s).1.current_match_index = (N : Int) - 1) ∧
    (∀ t : SearchNav, t.search_active = false ∨ t.search_matches = [] →
      action_search_next t = (t, true) ∧ action_search_prev t = (t, true)) := by
  have hcond : ¬(s.search_active = false ∨ s.search_matches.isEmpty = true) := by
    simp only [hact, List.isEmpty_iff, hne]
    simp
  have hNpos : 0 < (N : Int) := by
    have := List.length_pos.2 hne
    omega
  refine ⟨?_, ?_, ?_, ?_, ?_⟩
  · unfold action_search_next
    rw [if_neg hcond]
    exact ⟨by rw [hN], rfl, rfl⟩
  · unfold action_search_prev
    rw [if_neg hcond]
    refine ⟨?_, rfl, rfl⟩
    rw [hN]
    have : s.current_match_index - 1 + (N : Int) =
        s.current_match_index - 1 + (N : Int) * 1 := by ring
    rw [this, Int.add_mul_emod_self_left]
  · intro hz
    rw [nextStep_iterate s hact hne h0 (by rw [hN]; exact hlt) N, hz, hN]
    simp only [zero_add]
    exact Int.emod_self
  · intro hz
    unfold action_search_prev
    rw [if_neg hcond]
    simp only [hz, hN]
    have h1 : ((0 : Int) - 1) % (N : Int) = ((0 : Int) - 1 + (N : Int) * 1) %
        (N : Int) := (Int.add_mul_emod_self_left _ _ _).symm
    rw [h1]
    have h2 : (0 : Int) - 1 + (N : Int) * 1 = (N : Int) - 1 := by ring
    rw [h2]
    exact Int.emod_eq_of_lt (by omega) (by omega)
  · intro t ht
    have hcond' : t.search_active = false ∨ t.search_matches.isEmpty = true := by
      rcases ht with h | h
      · exact Or.inl h
      · exact Or.inr (by simp [List.isEmpty_iff, h])
    constructor
    · unfold action_search_next
      rw [if_pos hcond']
    · unfold action_search_prev
      rw [if_pos hcond']

/-- Witness for C2: cursor 0 on a two-match active search; `next` moves
the cursor to 1. -/
theorem search_nav_spec_witness :
    (action_search_next
        { search_matches := [(0, 0), (1, 0)], current_match_index := 0,
          search_active := true }).1.current_match_index = 1 := by
  have h := (search_nav_spec
    { search_matches := [(0, 0), (1, 0)], current_match_index := 0,
      search_active := true } 2 rfl rfl (by decide) (by decide)
      (by decide)).1.1
  rw [h]
  decide

/-- Cell text used by the search of `main.py` (lines 527-542): the
Timestamp column is formatted with strftime, the text columns yield the
corresponding record field, and every other column leaves the initial
empty string in place. -/
def cellText (column : String) (log : LogEntry) : String :=
  if column = "Timestamp" then formatTimestamp log.timestamp
  else if column = "Service" then log.service
  else if column = "Message" then log.message
  else if column = "Host" then log.host
  else if column = "Trace ID" then log.trace_id
  else if column = "Span ID" then log.span_id
  else if column = "Content" then log.content
  else ""

/-- Full search state produced by `DynatraceLogTUI._perform_search`. -/
structure SearchState where
  search_term : String
  search_matches : List (Nat × Nat)
  current_match_index : Int
  search_active : Bool
  deriving DecidableEq, Repr

/-- `DynatraceLogTUI._perform_search`: lower the term, scan every row
of the current logs and every visible column in display order (skipping
the Level column), and collect the coordinates whose lowered cell text
contains the lowered term; the cursor moves to 0 exactly when matches
were found, else remains the initial -1. -/
def perform_search (logs : List LogEntry) (visible_columns : List String)
    (search_term : String) : SearchState :=
  let t := pyLower search_term
  let ms := (List.range logs.length).flatMap (fun r =>
    (List.range visible_columns.length).filterMap (fun c =>
      let column := visible_columns.getD c ""
      if column = "Level" then none
      else if pyIn t (pyLower (cellText column (logs.getD r default)))
      then some (r, c)
      else none))
  { search_term := t, search_matches := ms,
    current_match_index := if ms.isEmpty then -1 else 0,
    search_active := true }

/-- All (row, column) coordinates of an n-row, m-column table in
row-major order. -/
def rowMajorPairs (n m : Nat) : List (Nat × Nat) :=
  (List.range n).flatMap (fun r => (List.range m).map (fun c => (r, c)))

/-- The match predicate of the search, as the specification states it:
the coordinate's column is not the Level column and the lowered term
occurs in the lowered cell text of that record and column. -/
def searchHit (logs : List LogEntry) (cols : List String) (term : String)
    (p : Nat × Nat) : Bool :=
  if cols.getD p.2 "" = "Level" then false
  else pyIn (pyLower term) (pyLower (cellText (cols.getD p.2 "") (logs.getD p.1 default)))

lemma filter_flatMap_comm {α β : Type} (l : List α) (f : α → List β)
    (p : β → Bool) :
    (l.flatMap f).filter p = l.flatMap (fun a => (f a).filter p) := by
  induction l with
  | nil => rfl
  | cons a l ih => simp [List.flatMap_cons, List.filter_append, ih]

lemma filterMap_if_eq_map_filter {α β : Type} (l : List α) (p : α → Bool)
    (f : α → β) :
    l.filterMap (fun a => if p a then some (f a) else none) =
      (l.filter p).map f := by
  induction l with
  | nil => rfl
  | cons a l ih =>
    by_cases h : p a
    · simp [List.filterMap_cons, List.filter_cons, h, ih]
    · simp [List.filterMap_cons, List.filter_cons, h, ih]

lemma perform_search_inner (logs : List LogEntry) (cols : List String)
    (term : String) (r : Nat) :
    (List.range cols.length).filterMap (fun c =>
      let column := cols.getD c ""
      if column = "Level" then none
      else if pyIn (pyLower term)
          (pyLower (cellText column (logs.getD r default)))
      then some (r, c)
      else none) =
    ((List.range cols.length).map (fun c => (r, c))).filter
      (searchHit logs cols term) := by
  have h1 : (fun c : Nat =>
      let column := cols.getD c ""
      if column = "Level" then none
      else if pyIn (pyLower term)
          (pyLower (cellText column (logs.getD r default)))
      then some (r, c)
      else none) =
    (fun c : Nat =>
      if searchHit logs cols term (r, c) then some (r, c) else none) := by
    funext c
    show (if cols.getD c "" = "Level" then none
        else if pyIn (pyLower term)
            (pyLower (cellText (cols.getD c "") (logs.getD r default))) = true
        then some (r, c)
        else none) =
      (if (if cols.getD c "" = "Level" then false
          else pyIn (pyLower term)
            (pyLower (cellText (cols.getD c "") (logs.getD r default)))) = true
        then some (r, c)
        else none)
    by_cases h : cols.getD c "" = "Level"
    · rw [if_pos h, if_pos h]
      simp
    · rw [if_neg h, if_neg h]
  rw [h1, filterMap_if_eq_map_filter, List.filter_map]
  rfl

lemma perform_search_matches (logs : List LogEntry) (cols : List String)
    (term : String) :
    (perform_search logs cols term).search_matches =
      (rowMajorPairs logs.length cols.length).filter
        (searchHit logs cols term) := by
  unfold perform_search rowMajorPairs
  simp only []
  rw [filter_flatMap_comm]
  exact congrArg (List.range logs.length).flatMap
    (funext (perform_search_inner logs cols term))

lemma mem_perform_search (logs : List LogEntry) (cols : List String)
    (term : String) (r c : Nat) :
    (r, c) ∈ (perform_search logs cols term).search_matches ↔
      r < logs.length ∧ c < cols.length ∧
        searchHit logs cols term (r, c) = true := by
  rw [perform_search_matches, List.mem_filter]
  constructor
  · intro h
    obtain ⟨hmem, hhit⟩ := h
    unfold rowMajorPairs at hmem
    rw [List.mem_flatMap] at hmem
    obtain ⟨a, ha, hb⟩ := hmem
    rw [List.mem_map] at hb
    obtain ⟨b, hbmem, heq⟩ := hb
    obtain ⟨h1, h2⟩ := Prod.mk.injEq _ _ _ _ ▸ heq
    subst h1
    subst h2
    exact ⟨List.mem_range.1 ha, List.mem_range.1 hbmem, hhit⟩
  · intro h
    obtain ⟨hr, hc, hhit⟩ := h
    refine ⟨?_, hhit⟩
    unfold rowMajorPairs
    rw [List.mem_flatMap]
    exact ⟨r, List.mem_range.2 hr, List.mem_map.2 ⟨c, List.mem_range.2 hc, rfl⟩⟩

lemma searchHit_iff (logs : List LogEntry) (cols : List String)
    (term : String) (p : Nat × Nat) :
    searchHit logs cols term p = true ↔
      cols.getD p.2 "" ≠ "Level" ∧
      pyIn (pyLower term)
        (pyLower (cellText (cols.getD p.2 "") (logs.getD p.1 default))) = true := by
  unfold searchHit
  by_cases h : cols.getD p.2 "" = "Level"
  · rw [if_pos h]
    apply iff_of_false
    · simp
    · intro hcontra
      exact hcontra.1 h
  · rw [if_neg h]
    constructor
    · intro hp
      exact ⟨h, hp⟩
    · intro hp
      exact hp.2

lemma string_data_eq_nil {s : String} (h : s.data = []) : s = "" := by
  cases s with
  | mk data =>
    rw [show data = [] from h]

/-- Claim C1: for a non-empty search term, the search produces exactly
the row-major filtering of all (row, column) coordinates by the match
predicate; a coordinate is a match exactly when its column is not the
Level column and the term is a case-insensitive substring of the cell
text of that record in that column (timestamps compared in their
strftime form through `cellText`); the cursor becomes 0 when matches
exist and stays -1 otherwise. -/
theorem perform_search_spec (logs : List LogEntry) (cols : List String)
    (term : String) (hterm : term ≠ "") :
    ((perform_search logs cols term).search_matches =
      (rowMajorPairs logs.length cols.length).filter
        (searchHit logs cols term)) ∧
    (∀ r c, (r, c) ∈ (perform_search logs cols term).search_matches ↔
      r < logs.length ∧ c < cols.length ∧
      cols.getD c "" ≠ "Level" ∧
      pyIn (pyLower term)
        (pyLower (cellText (cols.getD c "") (logs.getD r default))) = true) ∧
    ((perform_search logs cols term).search_matches ≠ [] →
      (perform_search logs cols term).current_match_index = 0) ∧
    ((perform_search logs cols term).search_matches = [] →
      (perform_search logs cols term).current_match_index = -1) := by
  have hcur : (perform_search logs cols term).current_match_index =
      if (perform_search logs cols term).search_matches.isEmpty then -1
      else 0 := rfl
  refine ⟨perform_search_matches logs cols term, ?_, ?_, ?_⟩
  · intro r c
    rw [mem_perform_search, searchHit_iff]
  · intro h
    rw [hcur, if_neg]
    simp [List.isEmpty_iff, h]
  · intro h
    rw [hcur, if_pos]
    simp [List.isEmpty_iff, h]

/-- Record with a concrete timestamp (2024-03-15 10:00:00 UTC) used by
the search witness. -/
def demoLogTs : LogEntry :=
  { demoLog "m" with timestamp := microsOfDateTime 2024 3 15 10 0 0 0 }

/-- Witness for C1: searching the formatted form of a timestamp finds
the Timestamp cell: the term "2024-03-15 10" matches coordinate (0,0)
when the only visible column is Timestamp. -/
theorem perform_search_spec_witness :
    (0, 0) ∈ (perform_search [demoLogTs] ["Timestamp"]
      "2024-03-15 10").search_matches :=
  ((perform_search_spec [demoLogTs] ["Timestamp"] "2024-03-15 10"
    (by decide)).2.1 0 0).2 (by decide)

/-- Claim C10: a visible column outside the eight handled column names
never contributes a match for a non-empty term: its cell text is the
empty string, which cannot contain a non-empty term. -/
theorem search_unhandled_column_no_match (logs : List LogEntry)
    (cols : List String) (term : String) (c : Nat) (hterm : term ≠ "")
    (hcol : cols.getD c "" ∉ (["Timestamp", "Level", "Service", "Message",
      "Host", "Trace ID", "Span ID", "Content"] : List String)) :
    ∀ r, (r, c) ∉ (perform_search logs cols term).search_matches := by
  intro r hmem
  rw [mem_perform_search] at hmem
  obtain ⟨-, -, hhit⟩ := hmem
  have hne : ∀ s ∈ (["Timestamp", "Level", "Service", "Message", "Host",
      "Trace ID", "Span ID", "Content"] : List String),
      cols.getD c "" ≠ s := fun s hs h => hcol (h ▸ hs)
  have hcell : cellText (cols.getD c "") (logs.getD r default) = "" := by
    unfold cellText
    rw [if_neg (hne "Timestamp" (by decide)),
      if_neg (hne "Service" (by decide)),
      if_neg (hne "Message" (by decide)),
      if_neg (hne "Host" (by decide)),
      if_neg (hne "Trace ID" (by decide)),
      if_neg (hne "Span ID" (by decide)),
      if_neg (hne "Content" (by decide))]
  rw [searchHit_iff] at hhit
  obtain ⟨-, hin⟩ := hhit
  rw [hcell] at hin
  have hdata : (pyLower term).data.isEmpty = true := hin
  rw [List.isEmpty_iff] at hdata
  have : term.data = [] := List.map_eq_nil_iff.1 hdata
  exact hterm (string_data_eq_nil this)

/-- Witness for C10: with the single visible column "User ID" (outside
the eight handled columns), the term "user" produces no match at
coordinate (0, 0) even though the record's message contains it. -/
theorem search_unhandled_column_no_match_witness :
    (0, 0) ∉ (perform_search [demoLog "user 42"] ["User ID"]
      "user").search_matches :=
  search_unhandled_column_no_match [demoLog "user 42"] ["User ID"] "user" 0
    (by decide) (by decide) 0

/-- `TimeRange.calculate_timeframe`: map a symbolic range token and the
current instant to the (start, end) pair of instants.  The Python
function returns ISO strings of the two `datetime` values; the embedding
returns the instants themselves (microseconds since the epoch; the
`.replace(hour=0, minute=0, ...)` calls on a timezone-aware UTC
`datetime` floor the instant to its day boundary). -/
def calculate_timeframe (time_range : String) (now : Int) : Int × Int :=
  if time_range = "30m" then (now - 30 * 60 * 1000000, now)
  else if time_range = "60m" then (now - 60 * 60 * 1000000, now)
  else if time_range = "2h" then (now - 2 * 3600 * 1000000, now)
  else if time_range = "6h" then (now - 6 * 3600 * 1000000, now)
  else if time_range = "today" then (now - now % usPerDay, now)
  else if time_range = "yesterday" then
    let yesterday := now - usPerDay
    (yesterday - yesterday % usPerDay,
      yesterday - yesterday % usPerDay + (usPerDay - 1))
  else if time_range = "24h" then (now - 24 * 3600 * 1000000, now)
  else if time_range = "7d" then (now - 7 * 24 * 3600 * 1000000, now)
  else (now - 30 * 60 * 1000000, now)

/-- Claim C8: the resolver never fails: any token outside the
recognized set falls back to the 30-minute default (end = now, start =
now minus 30 minutes); and for "yesterday" at
now = 2024-03-15T10:00:00Z the result is the whole previous calendar
day, 2024-03-14T00:00:00Z to 2024-03-14T23:59:59.999999Z. -/
theorem calculate_timeframe_spec (tr : String) (now : Int)
    (h : tr ∉ (["30m", "60m", "2h", "6h", "today", "yesterday", "24h",
      "7d"] : List String)) :
    calculate_timeframe tr now = (now - 30 * 60 * 1000000, now) ∧
    calculate_timeframe "yesterday" (microsOfDateTime 2024 3 15 10 0 0 0) =
      (microsOfDateTime 2024 3 14 0 0 0 0,
        microsOfDateTime 2024 3 14 23 59 59 999999) := by
  constructor
  · have hne : ∀ s ∈ (["30m", "60m", "2h", "6h", "today", "yesterday",
        "24h", "7d"] : List String), tr ≠ s := fun s hs he => h (he ▸ hs)
    unfold calculate_timeframe
    rw [if_neg (hne "30m" (by decide)), if_neg (hne "60m" (by decide)),
      if_neg (hne "2h" (by decide)), if_neg (hne "6h" (by decide)),
      if_neg (hne "today" (by decide)), if_neg (hne "yesterday" (by decide)),
      if_neg (hne "24h" (by decide)), if_neg (hne "7d" (by decide))]
  · decide

/-- Witness for C8: the unrecognized token "90m" resolves to the
30-minute default window ending at the given instant. -/
theorem calculate_timeframe_spec_witness :
    calculate_timeframe "90m" 7200000000 = (5400000000, 7200000000) :=
  (calculate_timeframe_spec "90m" 7200000000 (by decide)).1

/-- Numeric value of a decimal digit character, if it is one. -/
def digitVal? (c : Char) : Option Nat :=
  if c.isDigit then some (c.toNat - 48) else none

/-- Parse exactly two decimal digits. -/
def parse2 : List Char → Option (Nat × List Char)
  | a :: b :: rest => do
      let x ← digitVal? a
      let y ← digitVal? b
      pure (x * 10 + y, rest)
  | _ => none

/-- Parse exactly four decimal digits. -/
def parse4 : List Char → Option (Nat × List Char)
  | a :: b :: c :: d :: rest => do
      let w ← digitVal? a
      let x ← digitVal? b
      let y ← digitVal? c
      let z ← digitVal? d
      pure (((w * 10 + x) * 10 + y) * 10 + z, rest)
  | _ => none

/-- Consume one expected character. -/
def expectChar (c : Char) : List Char → Option (List Char)
  | x :: rest => if x = c then some rest else none
  | [] => none

/-- Gregorian leap year. -/
def isLeap (y : Int) : Bool :=
  (y % 4 == 0 && y % 100 != 0) || y % 400 == 0

/-- Days in a month of a given year. -/
def daysInMonth (y : Int) (m : Nat) : Nat :=
  if m = 2 then (if isLeap y then 29 else 28)
  else if m = 4 ∨ m = 6 ∨ m = 9 ∨ m = 11 then 30
  else 31

/-- Parse a fractional-second field of exactly 3 or 6 digits (the forms
`datetime.fromisoformat` accepts in the Python version the program
targets), as microseconds. -/
def parseFrac (l : List Char) : Option (Nat × List Char) :=
  let ds := l.takeWhile Char.isDigit
  let rest := l.drop ds.length
  let v := ds.foldl (fun a c => a * 10 + (c.toNat - 48)) 0
  if ds.length = 6 then some (v, rest)
  else if ds.length = 3 then some (v * 1000, rest)
  else none

/-- Parse an optional UTC-offset suffix `+HH:MM` / `-HH:MM` (or
nothing), as signed microseconds. -/
def parseOffset : List Char → Option Int
  | [] => some 0
  | '+' :: rest => do
      let (h, l) ← parse2 rest
      let l ← expectChar ':' l
      let (m, l) ← parse2 l
      guard (l = [])
      guard (h ≤ 23 ∧ m ≤ 59)
      pure (((h : Int) * 60 + (m : Int)) * 60 * 1000000)
  | '-' :: rest => do
      let (h, l) ← parse2 rest
      let l ← expectChar ':' l
      let (m, l) ← parse2 l
      guard (l = [])
      guard (h ≤ 23 ∧ m ≤ 59)
      pure (-(((h : Int) * 60 + (m : Int)) * 60 * 1000000))
  | _ => none

/-- `datetime.fromisoformat` on the grammar the program's inputs use
(`YYYY-MM-DD[<sep>HH:MM:SS[.fff|.ffffff]][±HH:MM]`): `none` embeds the
`ValueError` Python raises on a malformed string.  The resulting
instant is in UTC (the offset, when present, is subtracted out). -/
def parseIso (s : String) : Option Int := do
  let l := s.data
  let (y, l) ← parse4 l
  let l ← expectChar '-' l
  let (mo, l) ← parse2 l
  let l ← expectChar '-' l
  let (d, l) ← parse2 l
  guard (1 ≤ mo ∧ mo ≤ 12)
  guard (1 ≤ d ∧ d ≤ daysInMonth (y : Int) mo)
  let dateUs := daysFromCivil (y : Int) (mo : Int) (d : Int) * usPerDay
  match l with
  | [] => pure dateUs
  | _ :: rest => do
      let (h, l) ← parse2 rest
      let l ← expectChar ':' l
      let (mi, l) ← parse2 l
      let l ← expectChar ':' l
      let (sec, l) ← parse2 l
      guard (h ≤ 23 ∧ mi ≤ 59 ∧ sec ≤ 59)
      let (us, l) ← match l with
        | '.' :: r => parseFrac r
        | _ => pure (0, l)
      let off ← parseOffset l
      pure (dateUs + (((h : Int) * 60 + (mi : Int)) * 60 + (sec : Int)) *
        1000000 + (us : Int) - off)

/-- Python `s.replace("Z", "+00:00")` (every occurrence). -/
def replaceZ (s : String) : String :=
  ⟨s.data.flatMap (fun c => if c = 'Z' then "+00:00".data else [c])⟩

/-- `record.get(key, dflt)` on a raw API record, embedded as an
association list of string fields (the shape of Dynatrace log
records). -/
def recordGet (record : List (String × String)) (key dflt : String) : String :=
  (List.lookup key record).getD dflt

/-- The body of the mapping loop of
`DynatraceClient.convert_to_log_format` for one raw record: builds a
`LogEntry` with the documented field fallbacks; `none` embeds the
exception a malformed timestamp raises (`datetime.fromisoformat` is the
fallible step; a missing timestamp falls back to `datetime.now()`,
passed in as `now`, whose ISO round-trip always succeeds). -/
def parseRecord (record : List (String × String)) (now : Int) :
    Option LogEntry := do
  let ts ← match List.lookup "timestamp" record with
    | none => pure now
    | some s => parseIso (replaceZ s)
  pure
    { timestamp := ts,
      level := pyUpper (recordGet record "loglevel" "INFO"),
      service := recordGet record "dt.entity.service"
        (recordGet record "service_name" "unknown"),
      message := recordGet record "content" (recordGet record "message" ""),
      host := recordGet record "dt.entity.host"
        (recordGet record "host" "unknown"),
      trace_id := recordGet record "trace_id" "",
      span_id := recordGet record "span_id" "",
      content := recordGet record "content" (recordGet record "message" "") }

/-- A Dynatrace API response as `convert_to_log_format` inspects it: an
optional "error" key, and the optional "result"/"records" list. -/
structure ApiResponse where
  error : Option String
  records : Option (List (List (String × String)))

/-- The `for record in records` loop of `convert_to_log_format` under
the surrounding `try`/`except`: a record that fails to parse raises,
the exception aborts the loop, and the entries accumulated so far are
returned. -/
def convert_loop (now : Int) :
    List (List (String × String)) → List LogEntry → List LogEntry
  | [], acc => acc.reverse
  | r :: rest, acc =>
    match parseRecord r now with
    | some e => convert_loop now rest (e :: acc)
    | none => acc.reverse

/-- `DynatraceClient.convert_to_log_format`: an error response or a
response without `result.records` maps to the empty list; otherwise the
records are mapped by `convert_loop`. -/
def convert_to_log_format (resp : ApiResponse) (now : Int) : List LogEntry :=
  if resp.error.isSome then []
  else
    match resp.records with
    | none => []
    | some records => convert_loop now records []

/-- A raw record that parses (timestamp and content "first"). -/
def goodRec1 : List (String × String) :=
  [("timestamp", "2024-03-15T10:00:00Z"), ("loglevel", "info"),
    ("content", "first")]

/-- A raw record whose timestamp does not parse. -/
def badRec : List (String × String) := [("timestamp", "not-a-date")]

/-- A raw record that parses (timestamp and content "third"), placed
after the failing one. -/
def goodRec2 : List (String × String) :=
  [("timestamp", "2024-03-15T11:00:00Z"), ("content", "third")]

/-- Counterexample to C4 as stated: in the response
[goodRec1, badRec, goodRec2] the record after the failing one parses
fine (its entry would carry content "third"), yet the mapped result
contains only the entry of the record before the failure — the records
after the failing one are dropped as well. -/
theorem convert_drop_counterexample :
    Option.map (fun e => e.content) (parseRecord goodRec2 0) = some "third" ∧
    (convert_to_log_format ⟨none, some [goodRec1, badRec, goodRec2]⟩ 0).map
      (fun e => e.content) = ["first"] := by
  decide

lemma convert_loop_append (now : Int) (post : List (List (String × String)))
    (bad : List (String × String)) (hbad : parseRecord bad now = none) :
    ∀ (pre : List (List (String × String))) (acc : List LogEntry),
      (∀ r ∈ pre, (parseRecord r now).isSome) →
      convert_loop now (pre ++ bad :: post) acc =
        acc.reverse ++ pre.filterMap (fun r => parseRecord r now) := by
  intro pre
  induction pre with
  | nil =>
    intro acc _
    simp only [List.nil_append, List.filterMap_nil, List.append_nil]
    unfold convert_loop
    rw [hbad]
  | cons r pre ih =>
    intro acc hpre
    have hr : (parseRecord r now).isSome := hpre r (List.mem_cons_self r pre)
    obtain ⟨e, he⟩ := Option.isSome_iff_exists.1 hr
    have hrest : ∀ r' ∈ pre, (parseRecord r' now).isSome :=
      fun r' hr' => hpre r' (List.mem_cons_of_mem r hr')
    simp only [List.cons_append]
    unfold convert_loop
    rw [he]
    show convert_loop now (pre ++ bad :: post) (e :: acc) =
      acc.reverse ++ List.filterMap (fun r => parseRecord r now) (r :: pre)
    rw [ih (e :: acc) hrest]
    simp [List.filterMap_cons, he]

/-- Claim C4, amended: when a record of the response fails to parse,
the mapping stops there — the entries of the records before the
failure are still returned (the failure is not a fatal query error),
but the failing record and every record after it are dropped. -/
theorem convert_parse_failure_truncates (now : Int)
    (pre post : List (List (String × String)))
    (bad : List (String × String))
    (hpre : ∀ r ∈ pre, (parseRecord r now).isSome)
    (hbad : parseRecord bad now = none) :
    convert_to_log_format ⟨none, some (pre ++ bad :: post)⟩ now =
      pre.filterMap (fun r => parseRecord r now) := by
  unfold convert_to_log_format
  simp only [Option.isSome_none, Bool.false_eq_true, if_false]
  rw [convert_loop_append now post bad hbad pre [] hpre]
  simp

/-- Witness for the amended C4: with [goodRec1, badRec, goodRec2] only
goodRec1's entry survives. -/
theorem convert_parse_failure_truncates_witness :
    convert_to_log_format ⟨none, some [goodRec1, badRec, goodRec2]⟩ 0 =
      [goodRec1].filterMap (fun r => parseRecord r 0) :=
  convert_parse_failure_truncates 0 [goodRec1] [goodRec2] badRec
    (by decide) (by decide)
